import Mathlib

/-
  Shallow embedding of the release-notification publisher
  (src/index.js of semantic-release-slack-with-files) and proofs of the
  specification's claims about it.

  Modelling conventions:
  * JavaScript strings are Lean `String`s; possibly-undefined values are
    `Option String`.
  * `a || b` on strings (falsy = undefined or "") is `jsOrStr`;
    `a ?? b` (nullish coalescing) on booleans is `Option.getD`.
  * The Slack web client, the filesystem and `process.env` are an
    explicit environment `Env` of oracles; a transport call that throws
    is an oracle returning `Except.error msg` (the JS error's message).
  * The orchestrator returns its result together with the ordered list
    of transport calls it made and the log lines it emitted.
  * `String.prototype.replace` with a global literal-text regex and a
    string replacement is `jsReplaceAll`, including the ECMAScript
    GetSubstitution treatment of `$$`, `$&`, dollar-backquote and
    dollar-quote in the replacement string.
-/

namespace SRSlack

/-- JS `o || d` for a possibly-undefined string: `none` and `""` are falsy. -/
def jsOrStr (o : Option String) (d : String) : String :=
  match o with
  | none => d
  | some s => if s = "" then d else s

/-- JS falsiness of a possibly-undefined string (`!x`). -/
def jsFalsy (o : Option String) : Bool :=
  match o with
  | none => true
  | some s => s == ""

/-- JS truthiness of a possibly-undefined string. -/
def jsTruthyOpt (o : Option String) : Bool :=
  match o with
  | none => false
  | some s => s != ""

/-- JS `x || ''` for a possibly-undefined string. -/
def jsOrEmpty (o : Option String) : String := o.getD ""

/-- JS template-literal rendering of a possibly-undefined string. -/
def jsShowOpt (o : Option String) : String := o.getD "undefined"

/-- JS `String.prototype.trim`: strip leading and trailing whitespace
(kernel-reducible, unlike `String.trim`). -/
def jsTrim (s : String) : String :=
  ⟨(((s.data.dropWhile Char.isWhitespace).reverse).dropWhile Char.isWhitespace).reverse⟩

/-- JS `String.prototype.toLowerCase` (ASCII case folding). -/
def jsToLower (s : String) : String := ⟨s.data.map Char.toLower⟩

/-- JS `String.prototype.startsWith`. -/
def jsStartsWith (s pre : String) : Bool := pre.data.isPrefixOf s.data

/-- Worker for `jsSplitNewlines`. -/
def splitLinesGo (acc : List Char) : List Char → List (List Char)
  | [] => [acc.reverse]
  | c :: rest =>
    if c = '\n' then acc.reverse :: splitLinesGo [] rest
    else splitLinesGo (c :: acc) rest

/-- JS `s.split('\n')`. -/
def jsSplitNewlines (s : String) : List String :=
  (splitLinesGo [] s.data).map (fun l => ⟨l⟩)

/-- JS `Array.prototype.join`. -/
def jsJoin (sep : String) : List String → String
  | [] => ""
  | [x] => x
  | x :: y :: xs => x ++ sep ++ jsJoin sep (y :: xs)

def exceptIsOk {ε α : Type} : Except ε α → Bool
  | Except.ok _ => true
  | Except.error _ => false

/-- The release-version placeholder recognised by the interpolator. -/
def versionPH : String := "$\x7bnextRelease.version\x7d"

/-- The release-notes placeholder recognised by the interpolator. -/
def notesPH : String := "$\x7bnextRelease.notes\x7d"

def backquoteChar : Char := Char.ofNat 96

def singleQuoteChar : Char := Char.ofNat 39

/-- ECMAScript GetSubstitution for a replacement string (no capture
groups): expands dollar-dollar, dollar-ampersand, dollar-backquote and
dollar-quote; every other dollar sequence is literal.  `orig` is the
subject string, `pat` the matched literal pattern, `pos` the match
position; the final argument is the replacement text being scanned. -/
def substGo (orig pat : List Char) (pos : Nat) : List Char → List Char
  | [] => []
  | c :: rest =>
    if c = '$' then
      match rest with
      | [] => ['$']
      | d :: rest2 =>
        if d = '$' then '$' :: substGo orig pat pos rest2
        else if d = '&' then pat ++ substGo orig pat pos rest2
        else if d = backquoteChar then orig.take pos ++ substGo orig pat pos rest2
        else if d = singleQuoteChar then
          orig.drop (pos + pat.length) ++ substGo orig pat pos rest2
        else '$' :: d :: substGo orig pat pos rest2
    else c :: substGo orig pat pos rest

/-- The replacement text actually inserted for a match of `pat` at
position `pos` of `orig` when the replacement string is `repl`. -/
def jsSubst (orig pat repl : List Char) (pos : Nat) : List Char :=
  substGo orig pat pos repl

/-- Worker for `jsReplaceAll`: scans `rest` (which starts at position
`pos` of `orig`), replacing every non-overlapping left-to-right match of
`pat`.  `fuel` bounds the recursion; it is initialised to the subject's
length, which suffices because every step consumes at least one
character. -/
def goRepl (orig pat repl : List Char) : Nat → Nat → List Char → List Char
  | 0, _, rest => rest
  | _ + 1, _, [] => []
  | fuel + 1, pos, c :: rest =>
    if (!pat.isEmpty) && pat.isPrefixOf (c :: rest) then
      jsSubst orig pat repl pos ++
        goRepl orig pat repl fuel (pos + pat.length) (List.drop pat.length (c :: rest))
    else
      c :: goRepl orig pat repl fuel (pos + 1) rest

/-- JS `s.replace(/pat/g, repl)` for a literal-text pattern `pat` and a
string replacement `repl` (dollar patterns in `repl` are expanded). -/
def jsReplaceAll (s pat repl : String) : String :=
  ⟨goRepl s.data pat.data repl.data s.data.length 0 s.data⟩

/-- Does `pat` occur (as a contiguous sublist) in the argument?  Mirrors
the match test of `goRepl`. -/
def hasMatch (pat : List Char) : List Char → Bool
  | [] => false
  | c :: rest => ((!pat.isEmpty) && pat.isPrefixOf (c :: rest)) || hasMatch pat rest

/-- Modelled from the spec: plain global literal replacement — "replace
every occurrence ... leaving all other text unchanged" — with the
replacement inserted verbatim (no dollar-pattern expansion). -/
def specGo (pat repl : List Char) : Nat → List Char → List Char
  | 0, rest => rest
  | _ + 1, [] => []
  | fuel + 1, c :: rest =>
    if (!pat.isEmpty) && pat.isPrefixOf (c :: rest) then
      repl ++ specGo pat repl fuel (List.drop pat.length (c :: rest))
    else
      c :: specGo pat repl fuel rest

/-- Modelled from the spec: global verbatim replacement of every
occurrence of `pat` in `s` by `repl`. -/
def specReplaceAll (s pat repl : String) : String :=
  ⟨specGo pat.data repl.data s.data.length s.data⟩

/-- `interpolateString` from src/index.js: replace every occurrence of
the version placeholder, then every occurrence of the notes placeholder
(`x || ''` for absent values). -/
def interpolateString (version notes : Option String) (template : String) : String :=
  jsReplaceAll (jsReplaceAll template versionPH (jsOrEmpty version)) notesPH (jsOrEmpty notes)

structure Commit where
  message : String
deriving DecidableEq

structure Branch where
  name : String
  prerelease : Bool
deriving DecidableEq

structure NextRelease where
  version : Option String
  notes : Option String
deriving DecidableEq

/-- The semantic-release invocation context consumed by `success`. -/
structure Context where
  nextRelease : NextRelease
  commits : List Commit
  branch : Branch
deriving DecidableEq

structure PrereleaseConfig where
  enabled : Option Bool
  changelog : Option Bool
  lastCommitText : Option Bool
  lastLine : Option String
  message : Option String
deriving DecidableEq

/-- The plugin configuration object.  `assets` is the insertion-ordered
entry list of the JS object mapping pattern to label. -/
structure PluginConfig where
  assets : Option (List (String × String))
  prerelease : Option PrereleaseConfig
  changelog : Option Bool
  lastCommitText : Option Bool
  lastLine : Option String
  message : Option String
deriving DecidableEq

def emptyPrerelease : PrereleaseConfig := ⟨none, none, none, none, none⟩

structure SlackFile where
  id : String
  url_private_download : String
deriving DecidableEq

structure UploadGroup where
  files : Option (List SlackFile)
deriving DecidableEq

/-- Shape of a `files.uploadV2` response. -/
structure UploadResp where
  ok : Bool
  files : Option (List UploadGroup)
deriving DecidableEq

structure ChatMessage where
  text : String
deriving DecidableEq

/-- Shape of a `chat.postMessage` response (the fields the code reads). -/
structure ChatPostResp where
  ts : String
  message : ChatMessage
deriving DecidableEq

structure PostArgs where
  channel : String
  thread_ts : Option String
  text : String
deriving DecidableEq

structure UploadArgs where
  channel_id : String
  thread_ts : String
  file : String
  filename : String
  title : String
  initial_comment : String
deriving DecidableEq

structure UpdateArgs where
  channel : String
  ts : String
  text : String
deriving DecidableEq

/-- One transport call made by the orchestrator (the constant
`mrkdwn: true` field is omitted). -/
inductive TransportCall where
  | postMessage (args : PostArgs)
  | uploadV2 (args : UploadArgs)
  | chatUpdate (args : UpdateArgs)
deriving DecidableEq

inductive LogEntry where
  | log (s : String)
  | warn (s : String)
  | error (s : String)
deriving DecidableEq

/-- The environment of external collaborators: `process.env`
credentials, glob expansion, `path.resolve`, `fs.existsSync`, and the
three Slack transport primitives (an oracle returning `Except.error m`
models the call throwing an error whose message is `m`). -/
structure Env where
  slackToken : Option String
  slackChannel : Option String
  glob : String → List String
  resolvePath : String → String
  fileExists : String → Bool
  post : PostArgs → Except String ChatPostResp
  upload : UploadArgs → Except String UploadResp
  update : UpdateArgs → Except String Unit

def channelOf (env : Env) : String := env.slackChannel.getD ""

/-- JS object assignment `m[k] = v`: overwrite in place if the key is
present (keeping its position), otherwise append. -/
def objInsert (m : List (String × String)) (k v : String) : List (String × String) :=
  if m.any (fun e => e.1 == k) then
    m.map (fun e => if e.1 == k then (k, v) else e)
  else
    m ++ [(k, v)]

def insertFiles (m : List (String × String)) (files : List String)
    (label : String) : List (String × String) :=
  files.foldl (fun acc f => objInsert acc f label) m

/-- One iteration of the `resolveAssets` loop: interpolate the declared
pattern, glob it, record it as missing on zero matches, otherwise insert
every matched file under the declaration's label. -/
def resolveStep (interp : String → String) (glob : String → List String)
    (acc : List (String × String) × List String) (pl : String × String) :
    List (String × String) × List String :=
  let ip := interp pl.1
  let files := glob ip
  if files.isEmpty then (acc.1, acc.2 ++ [ip])
  else (insertFiles acc.1 files pl.2, acc.2)

def missingHeader : String := "The following required assets were not found:\n"

/-- `resolveAssets` from src/index.js: resolve every declaration, then
fail with one aggregate error if any interpolated pattern matched
nothing, else return the resolved path-to-label mapping. -/
def resolveAssets (rawAssets : List (String × String)) (interp : String → String)
    (glob : String → List String) : Except String (List (String × String)) :=
  if ((rawAssets.foldl (resolveStep interp glob) ([], [])).2).isEmpty then
    Except.ok (rawAssets.foldl (resolveStep interp glob) ([], [])).1
  else
    Except.error (missingHeader ++
      jsJoin "\n" (rawAssets.foldl (resolveStep interp glob) ([], [])).2)

/-- The last-commit body extraction of src/index.js: drop the subject
line, keep only lines that are not blank and are not signed-off-by or
co-authored-by trailers (case-insensitively on the trimmed line), join
and trim. -/
def lastCommitBody (includeLastCommitText : Bool) (commits : List Commit) : String :=
  if includeLastCommitText && !commits.isEmpty then
    match commits with
    | [] => ""
    | c :: _ =>
      jsTrim (jsJoin "\n"
        (((jsSplitNewlines c.message).drop 1).filter (fun line =>
          jsTrim line != "" &&
          !(jsStartsWith (jsToLower (jsTrim line)) "signed-off-by:") &&
          !(jsStartsWith (jsToLower (jsTrim line)) "co-authored-by:"))))
  else ""

/-- Modelled from the spec (section 4.4): split into lines, discard the
first line, discard blank lines, discard trailer lines (trimmed,
case-insensitive), join with newlines, trim. -/
def specExcerpt (msg : String) : String :=
  let ls := (jsSplitNewlines msg).drop 1
  let ls := ls.filter (fun l => jsTrim l != "")
  let ls := ls.filter (fun l => !(jsStartsWith (jsToLower (jsTrim l)) "signed-off-by:"))
  let ls := ls.filter (fun l => !(jsStartsWith (jsToLower (jsTrim l)) "co-authored-by:"))
  jsTrim (jsJoin "\n" ls)

/-- The Description section of the composed message, as a standalone
expression (empty when disabled or when the excerpt is empty). -/
def descSection (includeLastCommitText : Bool) (body : String) : String :=
  if includeLastCommitText && body != "" then
    "*📖 Description:*\n" ++ body ++ "\n\n"
  else ""

/-- The Changelog section of the composed message, as a standalone
expression (empty when disabled or when the notes are absent/empty). -/
def changelogSection (includeChangelog : Bool) (notes : Option String) : String :=
  if includeChangelog && jsTruthyOpt notes then
    "*📝 Changelog:*\n" ++ jsOrEmpty notes ++ "\n\n"
  else ""

/-- `formatMessage` from src/index.js, with the values the closure
captures passed explicitly. -/
def formatMessage (version notes : Option String) (rawMessageTemplate : String)
    (includeLastCommitText : Bool) (lcb : String) (includeChangelog : Bool) : String :=
  let message := interpolateString version notes rawMessageTemplate ++ "\n\n"
  let message :=
    if includeLastCommitText && lcb != "" then
      message ++ ("*📖 Description:*\n" ++ lcb ++ "\n\n")
    else message
  let message :=
    if includeChangelog && jsTruthyOpt notes then
      message ++ ("*📝 Changelog:*\n" ++ jsOrEmpty notes ++ "\n\n")
    else message
  message

def effAssets (cfg : PluginConfig) : List (String × String) := cfg.assets.getD []

def effPre (cfg : PluginConfig) : PrereleaseConfig := cfg.prerelease.getD emptyPrerelease

def effPrereleaseEnabled (cfg : PluginConfig) : Bool := (effPre cfg).enabled.getD false

def effIncludeChangelog (cfg : PluginConfig) (ctx : Context) : Bool :=
  if ctx.branch.prerelease then (effPre cfg).changelog.getD false
  else cfg.changelog.getD false

def effIncludeLastCommitText (cfg : PluginConfig) (ctx : Context) : Bool :=
  if ctx.branch.prerelease then (effPre cfg).lastCommitText.getD false
  else cfg.lastCommitText.getD false

def effLastLine (cfg : PluginConfig) (ctx : Context) : String :=
  if ctx.branch.prerelease then jsOrStr (effPre cfg).lastLine ""
  else jsOrStr cfg.lastLine ""

def effTemplate (cfg : PluginConfig) (ctx : Context) : String :=
  if ctx.branch.prerelease then
    jsOrStr (effPre cfg).message ("Prerelease: " ++ jsShowOpt ctx.nextRelease.version)
  else
    jsOrStr cfg.message ("New release: " ++ jsShowOpt ctx.nextRelease.version)

/-- The initial announcement text: `formatMessage()` at posting time. -/
def composeInitial (cfg : PluginConfig) (ctx : Context) : String :=
  formatMessage ctx.nextRelease.version ctx.nextRelease.notes (effTemplate cfg ctx)
    (effIncludeLastCommitText cfg ctx)
    (lastCommitBody (effIncludeLastCommitText cfg ctx) ctx.commits)
    (effIncludeChangelog cfg ctx)

/-- The text of the update call: recomposed message, Download Links
section, then the configured last line when non-empty. -/
def updatedText (cfg : PluginConfig) (ctx : Context) (links : List String) : String :=
  composeInitial cfg ctx ++ "*📥 Download Links:*\n" ++ jsJoin "\n" links ++
    (if effLastLine cfg ctx ≠ "" then "\n\n" ++ effLastLine cfg ctx else "")

/-- `path.basename` for forward-slash paths without a trailing slash. -/
def basename (p : String) : String := ⟨(p.data.reverse.takeWhile (fun c => c ≠ '/')).reverse⟩

def mkUploadArgs (channel threadTs resolvedPath label : String) : UploadArgs :=
  ⟨channel, threadTs, resolvedPath, basename resolvedPath, label, "📎 " ++ label⟩

/-- The ok-shape check of the upload loop: `fileResponse.ok &&
fileResponse.files && fileResponse.files[0] && fileResponse.files[0].files
&& fileResponse.files[0].files[0]`; returns the extracted first file. -/
def okFile (r : UploadResp) : Option SlackFile :=
  if r.ok then
    match r.files with
    | some (g :: _) =>
      match g.files with
      | some (f :: _) => some f
      | _ => none
    | _ => none
  else none

def linkLine (label : String) (f : SlackFile) : String :=
  "• *" ++ label ++ "*: <" ++ f.url_private_download ++ "|Download>"

/-- The upload loop (step 2 of the try block): iterate the resolved
assets in order; throw if a resolved path does not exist; on a throwing
upload propagate the error; append a download-link line exactly when the
response is ok-shaped, logging and continuing otherwise.  Returns the
accumulated link lines (or the error), the transport calls made and the
log lines emitted. -/
def uploadLoop (env : Env) (channel threadTs : String) :
    List (String × String) → Except String (List String) × List TransportCall × List LogEntry
  | [] => (Except.ok [], [], [])
  | (filePath, label) :: rest =>
    if env.fileExists (env.resolvePath filePath) then
      match env.upload (mkUploadArgs channel threadTs (env.resolvePath filePath) label) with
      | Except.error e =>
        (Except.error e,
          [TransportCall.uploadV2 (mkUploadArgs channel threadTs (env.resolvePath filePath) label)],
          [LogEntry.log ("Uploading " ++ label ++ "...")])
      | Except.ok resp =>
        match okFile resp with
        | some f =>
          ((uploadLoop env channel threadTs rest).1.map (fun ls => linkLine label f :: ls),
            TransportCall.uploadV2 (mkUploadArgs channel threadTs (env.resolvePath filePath) label) ::
              (uploadLoop env channel threadTs rest).2.1,
            LogEntry.log ("Uploading " ++ label ++ "...") ::
              LogEntry.log ("Uploaded " ++ label ++ ": " ++ f.id) ::
                (uploadLoop env channel threadTs rest).2.2)
        | none =>
          ((uploadLoop env channel threadTs rest).1,
            TransportCall.uploadV2 (mkUploadArgs channel threadTs (env.resolvePath filePath) label) ::
              (uploadLoop env channel threadTs rest).2.1,
            LogEntry.log ("Uploading " ++ label ++ "...") ::
              LogEntry.error ("Failed to upload " ++ label ++ ".") ::
                (uploadLoop env channel threadTs rest).2.2)
    else
      (Except.error ("Resolved file not found: " ++ env.resolvePath filePath), [], [])

/-- Outcome of the try block: result, transport calls, logs, and the
`initialMessage` / `threadTs` variables as left for the catch block. -/
structure TryOut where
  result : Except String Unit
  calls : List TransportCall
  logs : List LogEntry
  initialMessage : Option ChatPostResp
  threadTs : Option String

def noFilesWarn : String := "No files uploaded. The initial message was not updated."

/-- The try block of `success`: resolve assets, post the initial
message, run the upload loop, then update the message when at least one
download link was accumulated. -/
def runTry (cfg : PluginConfig) (ctx : Context) (env : Env) : TryOut :=
  match resolveAssets (effAssets cfg)
      (interpolateString ctx.nextRelease.version ctx.nextRelease.notes) env.glob with
  | Except.error e => ⟨Except.error e, [], [], none, none⟩
  | Except.ok assets =>
    match env.post ⟨channelOf env, none, composeInitial cfg ctx⟩ with
    | Except.error e =>
      ⟨Except.error e,
        [TransportCall.postMessage ⟨channelOf env, none, composeInitial cfg ctx⟩], [],
        none, none⟩
    | Except.ok msg =>
      match uploadLoop env (channelOf env) msg.ts assets with
      | (Except.error e, upCalls, upLogs) =>
        ⟨Except.error e,
          TransportCall.postMessage ⟨channelOf env, none, composeInitial cfg ctx⟩ :: upCalls,
          LogEntry.log (":rocket: Initial release message sent: " ++ msg.ts) :: upLogs,
          some msg, some msg.ts⟩
      | (Except.ok links, upCalls, upLogs) =>
        if links.isEmpty then
          ⟨Except.ok (),
            TransportCall.postMessage ⟨channelOf env, none, composeInitial cfg ctx⟩ :: upCalls,
            LogEntry.log (":rocket: Initial release message sent: " ++ msg.ts) ::
              upLogs ++ [LogEntry.warn noFilesWarn],
            some msg, some msg.ts⟩
        else
          match env.update ⟨channelOf env, msg.ts, updatedText cfg ctx links⟩ with
          | Except.error e =>
            ⟨Except.error e,
              TransportCall.postMessage ⟨channelOf env, none, composeInitial cfg ctx⟩ ::
                upCalls ++
                  [TransportCall.chatUpdate ⟨channelOf env, msg.ts, updatedText cfg ctx links⟩],
              LogEntry.log (":rocket: Initial release message sent: " ++ msg.ts) :: upLogs,
              some msg, some msg.ts⟩
          | Except.ok _ =>
            ⟨Except.ok (),
              TransportCall.postMessage ⟨channelOf env, none, composeInitial cfg ctx⟩ ::
                upCalls ++
                  [TransportCall.chatUpdate ⟨channelOf env, msg.ts, updatedText cfg ctx links⟩],
              LogEntry.log (":rocket: Initial release message sent: " ++ msg.ts) ::
                upLogs ++
                  [LogEntry.log "Release message updated with download links and last line."],
              some msg, some msg.ts⟩

/-- Arguments of the recovery thread reply posted by the catch block. -/
def replyArgs (channel errMsg ts : String) : PostArgs :=
  ⟨channel, some ts,
    ":x: An error occurred during the release process:\n`" ++ errMsg ++ "`"⟩

def cautionSuffix : String :=
  "\n\n:x: *An issue occurred with this release. Users are advised NOT to use this version.*"

/-- Arguments of the recovery overwrite of the original announcement. -/
def cautionArgs (channel : String) (m : ChatPostResp) : UpdateArgs :=
  ⟨channel, m.ts, m.message.text ++ cautionSuffix⟩

/-- Second recovery action of the catch block: overwrite the original
message with the caution suffix appended, when an initial message
exists.  A throwing update propagates its own error; otherwise the
original error is rethrown. -/
def recoverAnnotate (env : Env) (channel errMsg : String)
    (initialMessage : Option ChatPostResp) (calls : List TransportCall) :
    Except String Unit × List TransportCall :=
  match initialMessage with
  | some m =>
    match env.update (cautionArgs channel m) with
    | Except.error e3 =>
      (Except.error e3, calls ++ [TransportCall.chatUpdate (cautionArgs channel m)])
    | Except.ok _ =>
      (Except.error errMsg, calls ++ [TransportCall.chatUpdate (cautionArgs channel m)])
  | none => (Except.error errMsg, calls)

/-- The catch block of `success` (after its `logger.error` line): post a
thread reply when a thread identifier exists (a throw there propagates
and skips the rest), then annotate the original message, then rethrow
the original error. -/
def recover (env : Env) (channel errMsg : String) (threadTs : Option String)
    (initialMessage : Option ChatPostResp) : Except String Unit × List TransportCall :=
  match threadTs with
  | some ts =>
    match env.post (replyArgs channel errMsg ts) with
    | Except.error e2 =>
      (Except.error e2, [TransportCall.postMessage (replyArgs channel errMsg ts)])
    | Except.ok _ =>
      recoverAnnotate env channel errMsg initialMessage
        [TransportCall.postMessage (replyArgs channel errMsg ts)]
  | none => recoverAnnotate env channel errMsg initialMessage []

def CONFIG_ERROR : String :=
  "SLACK_TOKEN or SLACK_CHANNEL is not set in the environment variables."

/-- Overall outcome of one `success` invocation: the returned/thrown
result, the ordered transport calls, and the emitted log lines. -/
structure RunResult where
  result : Except String Unit
  calls : List TransportCall
  logs : List LogEntry

/-- The `success` plugin entry point of src/index.js. -/
def success (cfg : PluginConfig) (ctx : Context) (env : Env) : RunResult :=
  if jsFalsy env.slackToken || jsFalsy env.slackChannel then
    ⟨Except.error CONFIG_ERROR, [], []⟩
  else if !effPrereleaseEnabled cfg && ctx.branch.prerelease then
    ⟨Except.ok (), [],
      [LogEntry.log ("Skipping release for prerelease branch: " ++ ctx.branch.name)]⟩
  else
    let t := runTry cfg ctx env
    match t.result with
    | Except.ok _ => ⟨Except.ok (), t.calls, t.logs⟩
    | Except.error e =>
      let r := recover env (channelOf env) e t.threadTs t.initialMessage
      ⟨r.1, t.calls ++ r.2,
        t.logs ++ [LogEntry.error ("Error during file upload or message update: " ++ e)]⟩

def isChatUpdate : TransportCall → Bool
  | TransportCall.chatUpdate _ => true
  | _ => false

end SRSlack

namespace SRSlack

-- Concrete fixtures used by witnesses and counterexamples.

def cfgPre : PluginConfig := ⟨none, some ⟨some false, none, none, none, none⟩, none, none, none, none⟩

def ctxPre : Context := ⟨⟨some "1.0.0", some "notes"⟩, [], ⟨"beta", true⟩⟩

def envNoToken : Env :=
  ⟨none, some "C", fun _ => [], fun p => p, fun _ => false,
    fun _ => Except.error "never", fun _ => Except.error "never", fun _ => Except.error "never"⟩

def envIdle : Env :=
  ⟨some "tok", some "C", fun _ => [], fun p => p, fun _ => false,
    fun _ => Except.error "never", fun _ => Except.error "never", fun _ => Except.error "never"⟩

def tmplW8 : String := "Release " ++ versionPH ++ " ready; notes: " ++ notesPH

/-- A template in which removing the inner version placeholder splices
the surrounding text into a new version placeholder. -/
def spliceTemplate : String := "$\x7bnextRelease" ++ versionPH ++ ".version\x7d"

def cfgW2e : PluginConfig := ⟨some [("p", "L")], none, none, none, none, none⟩

def ctxW2 : Context := ⟨⟨some "1.0.0", some "n"⟩, [], ⟨"main", false⟩⟩

def envW2e : Env :=
  ⟨some "tok", some "C", fun _ => [], fun p => p, fun _ => false,
    fun _ => Except.error "never", fun _ => Except.error "never", fun _ => Except.error "never"⟩

def respFnW5 : UploadArgs → UploadResp := fun a =>
  if a.title = "A" then ⟨true, some [⟨some [⟨"F1", "http://dl/a"⟩]⟩]⟩ else ⟨false, none⟩

def envW5 : Env :=
  ⟨some "tok", some "C", fun _ => [], fun p => p, fun _ => true,
    fun _ => Except.error "never", fun a => Except.ok (respFnW5 a), fun _ => Except.ok ()⟩

def cfgW4 : PluginConfig := ⟨some [("a.bin", "App")], none, none, none, some "Enjoy!", none⟩

def ctxW4 : Context := ⟨⟨some "1.0.0", some "notes"⟩, [], ⟨"main", false⟩⟩

def respW4 : UploadResp := ⟨true, some [⟨some [⟨"F1", "http://dl/a"⟩]⟩]⟩

def envW4 : Env :=
  ⟨some "tok", some "C", fun _ => ["a.bin"], fun p => p, fun _ => true,
    fun _ => Except.ok ⟨"111", ⟨"init"⟩⟩, fun _ => Except.ok respW4, fun _ => Except.ok ()⟩

def cfgCX : PluginConfig := ⟨some [("a.bin", "App")], none, none, none, none, none⟩

def ctxCX : Context := ⟨⟨some "1.0.0", some "n"⟩, [], ⟨"main", false⟩⟩

/-- An environment in which the upload step fails (the resolved file
does not exist) and the recovery thread reply itself throws. -/
def envCX : Env :=
  ⟨some "tok", some "C", fun _ => ["a.bin"], fun p => "/" ++ p, fun _ => false,
    fun a => if a.thread_ts.isNone then Except.ok ⟨"111", ⟨"init"⟩⟩
             else Except.error "reply boom",
    fun _ => Except.ok ⟨true, none⟩, fun _ => Except.ok ()⟩

/-- Same failing try block as the counterexample, but with a recovery
reply that succeeds. -/
def envCXok : Env :=
  ⟨some "tok", some "C", fun _ => ["a.bin"], fun p => "/" ++ p, fun _ => false,
    fun a => if a.thread_ts.isNone then Except.ok ⟨"111", ⟨"init"⟩⟩
             else Except.ok ⟨"112", ⟨"r"⟩⟩,
    fun _ => Except.ok ⟨true, none⟩, fun _ => Except.ok ()⟩

theorem strAppend_data (s t : String) : (s ++ t).data = s.data ++ t.data := by
  cases s
  cases t
  rfl

theorem append3_ne_empty (a b c : String) (ha : a.data ≠ []) : a ++ b ++ c ≠ "" := by
  intro h
  have h2 : (a ++ b ++ c).data = ("" : String).data := congrArg String.data h
  rw [strAppend_data, strAppend_data] at h2
  have h0 : ("" : String).data = [] := rfl
  rw [h0] at h2
  exact ha (List.append_eq_nil.mp (List.append_eq_nil.mp h2).1).1

/-- C10: the credentials check runs before the prerelease entry guard:
whenever SLACK_TOKEN or SLACK_CHANNEL is unset (or empty), `success`
throws the configuration error — for every configuration and context,
including prerelease branches with prerelease support disabled — and
makes no transport call and no recovery annotation. -/
theorem success_credentials_first (cfg : PluginConfig) (ctx : Context) (env : Env)
    (h : jsFalsy env.slackToken = true ∨ jsFalsy env.slackChannel = true) :
    success cfg ctx env = ⟨Except.error CONFIG_ERROR, [], []⟩ := by
  unfold success
  rcases h with h | h <;> simp [h]

theorem success_credentials_first_witness :
    success cfgPre ctxPre envNoToken = ⟨Except.error CONFIG_ERROR, [], []⟩ :=
  success_credentials_first cfgPre ctxPre envNoToken (Or.inl rfl)

/-- C3: if the branch is marked prerelease and prerelease support is
disabled in configuration (with credentials present), `success` returns
normally with no transport call at all — a deliberate skip. -/
theorem success_prerelease_skip (cfg : PluginConfig) (ctx : Context) (env : Env)
    (ht : jsFalsy env.slackToken = false) (hc : jsFalsy env.slackChannel = false)
    (hpre : ctx.branch.prerelease = true) (hen : effPrereleaseEnabled cfg = false) :
    success cfg ctx env =
      ⟨Except.ok (), [],
        [LogEntry.log ("Skipping release for prerelease branch: " ++ ctx.branch.name)]⟩ := by
  unfold success
  simp [ht, hc, hpre, hen]

theorem success_prerelease_skip_witness :
    success cfgPre ctxPre envIdle =
      ⟨Except.ok (), [], [LogEntry.log "Skipping release for prerelease branch: beta"]⟩ :=
  success_prerelease_skip cfgPre ctxPre envIdle rfl rfl rfl rfl

end SRSlack

namespace SRSlack

/-- C6: the composed message always begins with the interpolated
template followed by a blank line; the Description section is present
(with its label and a trailing blank line) iff the include-last-commit
flag is set and the excerpt is non-empty; the Changelog section is
present iff the include-changelog flag is set and the notes are truthy;
and the sections appear in the fixed order template, description,
changelog. -/
theorem formatMessage_sections (version notes : Option String) (tmpl : String)
    (includeLCT : Bool) (lcb : String) (includeCL : Bool) :
    formatMessage version notes tmpl includeLCT lcb includeCL =
      interpolateString version notes tmpl ++ "\n\n" ++
        descSection includeLCT lcb ++ changelogSection includeCL notes ∧
    (includeLCT = true ∧ lcb ≠ "" →
      descSection includeLCT lcb = "*📖 Description:*\n" ++ lcb ++ "\n\n" ∧
      descSection includeLCT lcb ≠ "") ∧
    (¬(includeLCT = true ∧ lcb ≠ "") → descSection includeLCT lcb = "") ∧
    (includeCL = true ∧ jsTruthyOpt notes = true →
      changelogSection includeCL notes = "*📝 Changelog:*\n" ++ jsOrEmpty notes ++ "\n\n" ∧
      changelogSection includeCL notes ≠ "") ∧
    (¬(includeCL = true ∧ jsTruthyOpt notes = true) → changelogSection includeCL notes = "") := by
  refine ⟨?_, ?_, ?_, ?_, ?_⟩
  · unfold formatMessage descSection changelogSection
    by_cases h1 : (includeLCT && lcb != "") = true <;>
      by_cases h2 : (includeCL && jsTruthyOpt notes) = true <;>
        simp [h1, h2, String.append_assoc]
  · intro h
    have hb : (includeLCT && lcb != "") = true := by
      simp [h.1, bne_iff_ne, h.2]
    unfold descSection
    rw [if_pos hb]
    exact ⟨rfl, append3_ne_empty _ _ _ (by decide)⟩
  · intro h
    have hb : (includeLCT && lcb != "") = false := by
      rcases Decidable.not_and_iff_or_not.mp h with h3 | h3
      · simp [Bool.eq_false_iff.mpr h3]
      · simp [bne_iff_ne]
        intro _
        exact Decidable.not_not.mp h3
    unfold descSection
    rw [if_neg (by simp [hb])]
  · intro h
    have hb : (includeCL && jsTruthyOpt notes) = true := by simp [h.1, h.2]
    unfold changelogSection
    rw [if_pos hb]
    exact ⟨rfl, append3_ne_empty _ _ _ (by decide)⟩
  · intro h
    have hb : (includeCL && jsTruthyOpt notes) = false := by
      rcases Decidable.not_and_iff_or_not.mp h with h3 | h3
      · simp [Bool.eq_false_iff.mpr h3]
      · simp [Bool.eq_false_iff.mpr h3]
    unfold changelogSection
    rw [if_neg (by simp [hb])]

theorem formatMessage_sections_witness :
    formatMessage (some "1.0") (some "cl") "hello" true "body" true =
      interpolateString (some "1.0") (some "cl") "hello" ++ "\n\n" ++
        descSection true "body" ++ changelogSection true (some "cl") :=
  (formatMessage_sections (some "1.0") (some "cl") "hello" true "body" true).1

/-- C7: with the flag enabled and at least one commit, the extracted
excerpt equals the spec's pipeline (drop the subject line, drop blank
lines, drop signed-off-by / co-authored-by trailer lines
case-insensitively on the trimmed line, join, trim); when the excerpt is
empty the Description section is omitted. -/
theorem lastCommitBody_spec (c : Commit) (rest : List Commit) :
    lastCommitBody true (c :: rest) = specExcerpt c.message ∧
    (specExcerpt c.message = "" → descSection true (lastCommitBody true (c :: rest)) = "") := by
  have h1 : lastCommitBody true (c :: rest) = specExcerpt c.message := by
    unfold lastCommitBody specExcerpt
    simp only [List.filter_filter]
    rw [if_pos (show (true && !(c :: rest).isEmpty) = true by rfl)]
    congr 1
    congr 1
    apply List.filter_congr
    intro a _
    cases hb1 : (jsTrim a != "") <;>
      cases hb2 : jsStartsWith (jsToLower (jsTrim a)) "signed-off-by:" <;>
        cases hb3 : jsStartsWith (jsToLower (jsTrim a)) "co-authored-by:" <;>
          simp [hb1, hb2, hb3]
  refine ⟨h1, fun h2 => ?_⟩
  rw [h1, h2]
  rfl

theorem lastCommitBody_spec_witness :
    lastCommitBody true [⟨"fix: bug\n\nDetails here\nSigned-Off-By: X"⟩] =
      specExcerpt "fix: bug\n\nDetails here\nSigned-Off-By: X" ∧
    specExcerpt "fix: bug\n\nDetails here\nSigned-Off-By: X" = "Details here" :=
  ⟨(lastCommitBody_spec ⟨"fix: bug\n\nDetails here\nSigned-Off-By: X"⟩ []).1, by decide⟩

end SRSlack

namespace SRSlack

theorem substGo_no_dollar (repl : List Char) (h : '$' ∉ repl) (orig pat : List Char)
    (pos : Nat) : substGo orig pat pos repl = repl := by
  induction repl with
  | nil => rfl
  | cons c rest ih =>
    have hc : ¬c = '$' := fun he => h (he ▸ List.mem_cons_self c rest)
    have hrest : '$' ∉ rest := fun hm => h (List.mem_cons_of_mem _ hm)
    unfold substGo
    rw [if_neg hc, ih hrest]

theorem goRepl_no_dollar (repl : List Char) (h : '$' ∉ repl) :
    ∀ (fuel : Nat) (orig pat : List Char) (pos : Nat) (rest : List Char),
      goRepl orig pat repl fuel pos rest = specGo pat repl fuel rest := by
  intro fuel
  induction fuel with
  | zero => intros; rfl
  | succ n ih =>
    intro orig pat pos rest
    cases rest with
    | nil => rfl
    | cons c rs =>
      unfold goRepl specGo
      by_cases hm : ((!pat.isEmpty) && pat.isPrefixOf (c :: rs)) = true
      · rw [if_pos hm, if_pos hm, ih, jsSubst, substGo_no_dollar repl h]
      · rw [if_neg hm, if_neg hm, ih]

/-- C8 (amended): when the version and notes values contain no dollar
sign, interpolation is exactly the spec's global verbatim replacement of
every occurrence of the two placeholders (version first, then notes),
leaving all other text unchanged; no other placeholder is recognised and
the function is total.  (Values containing JS replacement patterns —
dollar-dollar, dollar-ampersand, dollar-backquote, dollar-quote — are
expanded by the transport's `String.replace` instead of being inserted
verbatim; see the counterexample.) -/
theorem interpolateString_verbatim (version notes : Option String) (template : String)
    (hv : '$' ∉ (jsOrEmpty version).data) (hn : '$' ∉ (jsOrEmpty notes).data) :
    interpolateString version notes template =
      specReplaceAll (specReplaceAll template versionPH (jsOrEmpty version)) notesPH
        (jsOrEmpty notes) := by
  unfold interpolateString jsReplaceAll specReplaceAll
  rw [goRepl_no_dollar _ hv, goRepl_no_dollar _ hn]

theorem interpolateString_verbatim_witness :
    interpolateString (some "1.2.0") (some "fix bug") tmplW8 =
      specReplaceAll (specReplaceAll tmplW8 versionPH "1.2.0") notesPH "fix bug" :=
  interpolateString_verbatim (some "1.2.0") (some "fix bug") tmplW8 (by decide) (by decide)

/-- C8 counterexample: with version value consisting of two dollar
signs, the spec's verbatim replacement of the placeholder yields that
value, but the code (JS `String.replace` dollar-pattern expansion)
yields a single dollar sign — the value is not inserted verbatim. -/
theorem interpolateString_verbatim_counterexample :
    specReplaceAll (specReplaceAll versionPH versionPH "$$") notesPH "" = "$$" ∧
    interpolateString (some "$$") (some "") versionPH = "$" ∧
    ("$" : String) ≠ "$$" :=
  ⟨by decide, by decide, by decide⟩

theorem goRepl_no_match (pat : List Char) :
    ∀ (fuel : Nat) (orig repl : List Char) (pos : Nat) (rest : List Char),
      hasMatch pat rest = false → goRepl orig pat repl fuel pos rest = rest := by
  intro fuel
  induction fuel with
  | zero => intros; rfl
  | succ n ih =>
    intro orig repl pos rest h
    cases rest with
    | nil => rfl
    | cons c rs =>
      unfold hasMatch at h
      rw [Bool.or_eq_false_iff] at h
      unfold goRepl
      rw [if_neg (by simp [h.1]), ih _ _ _ _ h.2]

theorem jsReplaceAll_no_match (s pat repl : String)
    (h : hasMatch pat.data s.data = false) : jsReplaceAll s pat repl = s := by
  unfold jsReplaceAll
  rw [goRepl_no_match _ _ _ _ _ _ h]

/-- C9 (amended): interpolation is idempotent on every template whose
once-interpolated result contains no remaining occurrence of either
placeholder.  Without that proviso idempotence can fail even for values
with no placeholder-looking substrings, because a replacement can splice
surrounding template text into a new placeholder (see the
counterexample). -/
theorem interpolateString_idempotent (version notes : Option String) (template : String)
    (hv : hasMatch versionPH.data (interpolateString version notes template).data = false)
    (hn : hasMatch notesPH.data (interpolateString version notes template).data = false) :
    interpolateString version notes (interpolateString version notes template) =
      interpolateString version notes template := by
  show jsReplaceAll
      (jsReplaceAll (interpolateString version notes template) versionPH (jsOrEmpty version))
      notesPH (jsOrEmpty notes) =
    interpolateString version notes template
  rw [jsReplaceAll_no_match _ _ _ hv, jsReplaceAll_no_match _ _ _ hn]

theorem interpolateString_idempotent_witness :
    interpolateString (some "1.2.0") (some "fix")
        (interpolateString (some "1.2.0") (some "fix") ("v " ++ versionPH)) =
      interpolateString (some "1.2.0") (some "fix") ("v " ++ versionPH) :=
  interpolateString_idempotent (some "1.2.0") (some "fix") ("v " ++ versionPH)
    (by decide) (by decide)

/-- C9 counterexample: with version and notes both the empty string
(which contains no placeholder-looking substring), interpolating
`spliceTemplate` once yields the version placeholder itself, so a second
interpolation changes the result — interpolation is not idempotent. -/
theorem interpolateString_idempotent_counterexample :
    jsOrEmpty (some "") = "" ∧
    hasMatch versionPH.data ("" : String).data = false ∧
    hasMatch notesPH.data ("" : String).data = false ∧
    interpolateString (some "") (some "")
        (interpolateString (some "") (some "") spliceTemplate) ≠
      interpolateString (some "") (some "") spliceTemplate :=
  ⟨rfl, rfl, rfl, by decide⟩

end SRSlack

namespace SRSlack

theorem isEmpty_true_iff {α : Type} (l : List α) : l.isEmpty = true ↔ l = [] := by
  cases l <;> simp

theorem filter_eq_nil_of_none {α : Type} (p : α → Bool) (l : List α)
    (h : ∀ x ∈ l, p x = false) : l.filter p = [] := by
  induction l with
  | nil => rfl
  | cons a rest ih =>
    rw [List.filter_cons, if_neg (by simp [h a (List.mem_cons_self a rest)])]
    exact ih (fun x hx => h x (List.mem_cons_of_mem _ hx))

theorem objInsert_self (m : List (String × String)) (k v : String) :
    (k, v) ∈ objInsert m k v := by
  unfold objInsert
  by_cases h : (m.any fun e => e.1 == k) = true
  · rw [if_pos h]
    rcases List.any_eq_true.mp h with ⟨a, ha, hak⟩
    refine List.mem_map.mpr ⟨a, ha, ?_⟩
    rw [if_pos hak]
  · rw [if_neg h]
    exact List.mem_append_right _ (List.mem_singleton.mpr rfl)

theorem objInsert_preserve (m : List (String × String)) (k v f l : String)
    (h : (f, l) ∈ m) : ∃ u, (f, u) ∈ objInsert m k v := by
  by_cases hk : f = k
  · subst hk
    exact ⟨v, objInsert_self m f v⟩
  · unfold objInsert
    by_cases h2 : (m.any fun e => e.1 == k) = true
    · refine ⟨l, ?_⟩
      rw [if_pos h2]
      refine List.mem_map.mpr ⟨(f, l), h, ?_⟩
      rw [if_neg (by simp [hk])]
    · exact ⟨l, by rw [if_neg h2]; exact List.mem_append_left _ h⟩

theorem objInsert_src (m : List (String × String)) (k v : String) (e : String × String)
    (h : e ∈ objInsert m k v) : e ∈ m ∨ e = (k, v) := by
  unfold objInsert at h
  by_cases h2 : (m.any fun x => x.1 == k) = true
  · rw [if_pos h2] at h
    rcases List.mem_map.mp h with ⟨a, ha, hae⟩
    by_cases hak : (a.1 == k) = true
    · rw [if_pos hak] at hae
      exact Or.inr hae.symm
    · rw [if_neg hak] at hae
      exact Or.inl (hae ▸ ha)
  · rw [if_neg h2] at h
    rcases List.mem_append.mp h with h3 | h3
    · exact Or.inl h3
    · exact Or.inr (List.mem_singleton.mp h3)

theorem insertFiles_cons (m : List (String × String)) (a : String) (rest : List String)
    (lab : String) : insertFiles m (a :: rest) lab = insertFiles (objInsert m a lab) rest lab :=
  rfl

theorem insertFiles_preserve (files : List String) :
    ∀ (m : List (String × String)) (lab f u : String),
      (f, u) ∈ m → ∃ w, (f, w) ∈ insertFiles m files lab := by
  induction files with
  | nil => exact fun m lab f u h => ⟨u, h⟩
  | cons a rest ih =>
    intro m lab f u h
    rw [insertFiles_cons]
    rcases objInsert_preserve m a lab f u h with ⟨w, hw⟩
    exact ih _ lab f w hw

theorem insertFiles_mem (files : List String) :
    ∀ (m : List (String × String)) (lab f : String), f ∈ files →
      ∃ w, (f, w) ∈ insertFiles m files lab := by
  induction files with
  | nil => intro m lab f h; exact absurd h (List.not_mem_nil f)
  | cons a rest ih =>
    intro m lab f h
    rw [insertFiles_cons]
    rcases List.mem_cons.mp h with rfl | h2
    · exact insertFiles_preserve rest _ lab f lab (objInsert_self m f lab)
    · exact ih _ lab f h2

theorem insertFiles_src (files : List String) :
    ∀ (m : List (String × String)) (lab : String) (e : String × String),
      e ∈ insertFiles m files lab → e ∈ m ∨ (e.1 ∈ files ∧ e.2 = lab) := by
  induction files with
  | nil => intro m lab e h; exact Or.inl h
  | cons a rest ih =>
    intro m lab e h
    rw [insertFiles_cons] at h
    rcases ih _ lab e h with h2 | h2
    · rcases objInsert_src m a lab e h2 with h3 | h3
      · exact Or.inl h3
      · right
        rw [h3]
        exact ⟨List.mem_cons_self _ _, rfl⟩
    · exact Or.inr ⟨List.mem_cons_of_mem _ h2.1, h2.2⟩

theorem resolveFold_missing (interp : String → String) (glob : String → List String)
    (l : List (String × String)) :
    ∀ acc : List (String × String) × List String,
      (l.foldl (resolveStep interp glob) acc).2 =
        acc.2 ++ (l.filter (fun pl => (glob (interp pl.1)).isEmpty)).map
          (fun pl => interp pl.1) := by
  induction l with
  | nil => intro acc; simp
  | cons pl rest ih =>
    intro acc
    rw [List.foldl_cons, ih]
    by_cases h : (glob (interp pl.1)).isEmpty = true
    · simp [resolveStep, h, List.filter_cons, List.append_assoc]
    · simp [resolveStep, h, List.filter_cons]

theorem resolveFold_preserve (interp : String → String) (glob : String → List String)
    (l : List (String × String)) :
    ∀ (acc : List (String × String) × List String) (f u : String),
      (f, u) ∈ acc.1 → ∃ w, (f, w) ∈ (l.foldl (resolveStep interp glob) acc).1 := by
  induction l with
  | nil => exact fun acc f u h => ⟨u, h⟩
  | cons pl rest ih =>
    intro acc f u h
    rw [List.foldl_cons]
    by_cases hg : (glob (interp pl.1)).isEmpty = true
    · exact ih _ f u (by simpa [resolveStep, hg] using h)
    · rcases insertFiles_preserve (glob (interp pl.1)) acc.1 pl.2 f u h with ⟨w, hw⟩
      exact ih _ f w (by simpa [resolveStep, hg] using hw)

theorem resolveFold_mem (interp : String → String) (glob : String → List String)
    (l : List (String × String)) :
    ∀ (acc : List (String × String) × List String) (pl : String × String), pl ∈ l →
      ∀ f, f ∈ glob (interp pl.1) →
        ∃ w, (f, w) ∈ (l.foldl (resolveStep interp glob) acc).1 := by
  induction l with
  | nil => intro acc pl h; exact absurd h (List.not_mem_nil pl)
  | cons q rest ih =>
    intro acc pl hpl f hf
    rw [List.foldl_cons]
    rcases List.mem_cons.mp hpl with rfl | h2
    · have hne : (glob (interp pl.1)).isEmpty = false := by
        cases hb : (glob (interp pl.1)).isEmpty
        · rfl
        · rw [(isEmpty_true_iff _).mp hb] at hf
          exact absurd hf (List.not_mem_nil f)
      rcases insertFiles_mem (glob (interp pl.1)) acc.1 pl.2 f hf with ⟨w, hw⟩
      exact resolveFold_preserve interp glob rest _ f w
        (by simpa [resolveStep, hne] using hw)
    · exact ih _ pl h2 f hf

theorem resolveFold_src (interp : String → String) (glob : String → List String)
    (l : List (String × String)) :
    ∀ (acc : List (String × String) × List String) (e : String × String),
      e ∈ (l.foldl (resolveStep interp glob) acc).1 →
        e ∈ acc.1 ∨ ∃ pl, pl ∈ l ∧ e.1 ∈ glob (interp pl.1) ∧ e.2 = pl.2 := by
  induction l with
  | nil => intro acc e h; exact Or.inl h
  | cons q rest ih =>
    intro acc e h
    rw [List.foldl_cons] at h
    rcases ih _ e h with h2 | h2
    · by_cases hg : (glob (interp q.1)).isEmpty = true
      · rw [show (resolveStep interp glob acc q).1 = acc.1 by simp [resolveStep, hg]] at h2
        exact Or.inl h2
      · rw [show (resolveStep interp glob acc q).1 =
            insertFiles acc.1 (glob (interp q.1)) q.2 by simp [resolveStep, hg]] at h2
        rcases insertFiles_src _ _ _ _ h2 with h3 | h3
        · exact Or.inl h3
        · exact Or.inr ⟨q, List.mem_cons_self _ _, h3.1, h3.2⟩
    · rcases h2 with ⟨pl, hpl, hf, hl⟩
      exact Or.inr ⟨pl, List.mem_cons_of_mem _ hpl, hf, hl⟩

/-- C2: if every declared pattern (after interpolation) glob-matches at
least one file, `resolveAssets` succeeds, every matched file appears in
the result, every result entry carries the label of a declaration that
matched it (the label of its declaration whenever that declaration is
unique — overlapping declarations are last-write-wins per the data
model); if any pattern matches zero files, it throws the single
aggregate error listing exactly the interpolated patterns that matched
nothing, one per line, in declaration order; and on that failure
`success` surfaces the error having made no transport call at all. -/
theorem resolveAssets_contract (rawAssets : List (String × String)) (interp : String → String)
    (glob : String → List String) (cfg : PluginConfig) (ctx : Context) (env : Env)
    (e : String) :
    ((∀ pl ∈ rawAssets, glob (interp pl.1) ≠ []) →
      ∃ M, resolveAssets rawAssets interp glob = Except.ok M ∧
        (∀ pl ∈ rawAssets, ∀ f ∈ glob (interp pl.1), ∃ lab, (f, lab) ∈ M) ∧
        (∀ fe ∈ M, ∃ pl, pl ∈ rawAssets ∧ fe.1 ∈ glob (interp pl.1) ∧ fe.2 = pl.2) ∧
        (∀ pl ∈ rawAssets, ∀ f ∈ glob (interp pl.1),
          (∀ pl2 ∈ rawAssets, f ∈ glob (interp pl2.1) → pl2 = pl) → (f, pl.2) ∈ M)) ∧
    ((∃ pl ∈ rawAssets, glob (interp pl.1) = []) →
      resolveAssets rawAssets interp glob =
        Except.error (missingHeader ++ jsJoin "\n"
          ((rawAssets.filter (fun pl => (glob (interp pl.1)).isEmpty)).map
            (fun pl => interp pl.1)))) ∧
    (jsFalsy env.slackToken = false → jsFalsy env.slackChannel = false →
      (!effPrereleaseEnabled cfg && ctx.branch.prerelease) = false →
      resolveAssets (effAssets cfg)
        (interpolateString ctx.nextRelease.version ctx.nextRelease.notes) env.glob =
        Except.error e →
      (success cfg ctx env).result = Except.error e ∧ (success cfg ctx env).calls = []) := by
  refine ⟨?_, ?_, ?_⟩
  · intro h
    have hm : (rawAssets.foldl (resolveStep interp glob) ([], [])).2 = [] := by
      rw [resolveFold_missing]
      rw [filter_eq_nil_of_none _ _ (fun pl hpl => by
        cases hb : (glob (interp pl.1)).isEmpty
        · rfl
        · exact absurd ((isEmpty_true_iff _).mp hb) (h pl hpl))]
      rfl
    refine ⟨(rawAssets.foldl (resolveStep interp glob) ([], [])).1, ?_, ?_, ?_, ?_⟩
    · unfold resolveAssets
      rw [if_pos (by rw [hm]; rfl)]
    · intro pl hpl f hf
      exact resolveFold_mem interp glob rawAssets ([], []) pl hpl f hf
    · intro fe hfe
      rcases resolveFold_src interp glob rawAssets ([], []) fe hfe with h2 | h2
      · exact absurd h2 (List.not_mem_nil fe)
      · exact h2
    · intro pl hpl f hf huniq
      rcases resolveFold_mem interp glob rawAssets ([], []) pl hpl f hf with ⟨w, hw⟩
      rcases resolveFold_src interp glob rawAssets ([], []) (f, w) hw with h2 | h2
      · exact absurd h2 (List.not_mem_nil _)
      · rcases h2 with ⟨pl2, hpl2, hf2, hl2⟩
        rw [← huniq pl2 hpl2 hf2, ← hl2]
        exact hw
  · intro h
    rcases h with ⟨pl, hpl, hg⟩
    have hmemf : pl ∈ rawAssets.filter (fun pl => (glob (interp pl.1)).isEmpty) :=
      List.mem_filter.mpr ⟨hpl, by rw [hg]; rfl⟩
    have hmap : (rawAssets.filter (fun pl => (glob (interp pl.1)).isEmpty)).map
        (fun pl => interp pl.1) ≠ [] :=
      List.ne_nil_of_mem (List.mem_map_of_mem _ hmemf)
    have hm := resolveFold_missing interp glob rawAssets ([], [])
    unfold resolveAssets
    rw [if_neg (by
      rw [hm]
      intro hiso
      exact hmap (by simpa using (isEmpty_true_iff _).mp hiso))]
    rw [hm]
    simp
  · intro ht hc hg hres
    have hrt : runTry cfg ctx env = ⟨Except.error e, [], [], none, none⟩ := by
      unfold runTry
      rw [hres]
    constructor <;> simp [success, ht, hc, hg, hrt, recover, recoverAnnotate]

theorem resolveAssets_contract_witness :
    exceptIsOk (resolveAssets [("p", "L")] (fun s => s) (fun _ => ["f1"])) = true ∧
    (success cfgW2e ctxW2 envW2e).result = Except.error (missingHeader ++ "p") ∧
    (success cfgW2e ctxW2 envW2e).calls = [] := by
  have hbc := (resolveAssets_contract (effAssets cfgW2e)
      (interpolateString ctxW2.nextRelease.version ctxW2.nextRelease.notes) envW2e.glob
      cfgW2e ctxW2 envW2e (missingHeader ++ "p")).2.2 rfl rfl rfl rfl
  obtain ⟨M, hM, -, -, -⟩ :=
    (resolveAssets_contract [("p", "L")] (fun s => s) (fun _ => ["f1"])
        cfgW2e ctxW2 envW2e "x").1
      (by intro pl hpl; exact List.cons_ne_nil "f1" [])
  exact ⟨by rw [hM]; rfl, hbc.1, hbc.2⟩

end SRSlack

namespace SRSlack

theorem exceptMap_ok {ε α β : Type} (f : α → β) (x : α) :
    Except.map f (Except.ok x : Except ε α) = Except.ok (f x) := rfl

theorem exceptMap_error {ε α β : Type} (f : α → β) (e : ε) :
    Except.map f (Except.error e : Except ε α) = Except.error e := rfl

theorem uploadLoop_no_update (env : Env) (channel threadTs : String) :
    ∀ assets : List (String × String),
      ((uploadLoop env channel threadTs assets).2.1).filter isChatUpdate = [] := by
  intro assets
  induction assets with
  | nil => rfl
  | cons a rest ih =>
    obtain ⟨fp, lab⟩ := a
    unfold uploadLoop
    by_cases hex : env.fileExists (env.resolvePath fp) = true
    · rw [if_pos hex]
      cases hu : env.upload (mkUploadArgs channel threadTs (env.resolvePath fp) lab) with
      | error e2 => simp [isChatUpdate]
      | ok resp =>
        cases hok : okFile resp with
        | some f =>
          simp only [hok]
          simpa [isChatUpdate] using ih
        | none =>
          simp only [hok]
          simpa [isChatUpdate] using ih
    · rw [if_neg hex]
      rfl

/-- C5: in the upload loop, taken in resolved-asset order with a
transport that does not throw: (1) when every resolved path exists, the
loop succeeds and the accumulated download-link lines are exactly one
line per asset whose upload response is ok-shaped, in order (anomalous
responses contribute no line and the loop continues); (2) when a
resolved path does not exist at upload time, the whole run fails with
the error naming that resolved path (a text distinct from the
resolution-time missing-pattern error); (3) every asset with an
anomalous (not ok-shaped) response gets a failure log entry. -/
theorem uploadLoop_spec (env : Env) (channel threadTs : String)
    (respFn : UploadArgs → UploadResp) (hup : ∀ a, env.upload a = Except.ok (respFn a)) :
    (∀ assets : List (String × String),
      (∀ pl ∈ assets, env.fileExists (env.resolvePath pl.1) = true) →
        (uploadLoop env channel threadTs assets).1 =
          Except.ok (assets.filterMap (fun pl =>
            (okFile (respFn (mkUploadArgs channel threadTs (env.resolvePath pl.1) pl.2))).map
              (fun f => linkLine pl.2 f)))) ∧
    (∀ (pre : List (String × String)) (fp lab : String) (rest : List (String × String)),
      (∀ pl ∈ pre, env.fileExists (env.resolvePath pl.1) = true) →
      env.fileExists (env.resolvePath fp) = false →
        (uploadLoop env channel threadTs (pre ++ (fp, lab) :: rest)).1 =
          Except.error ("Resolved file not found: " ++ env.resolvePath fp)) ∧
    (∀ assets : List (String × String),
      (∀ pl ∈ assets, env.fileExists (env.resolvePath pl.1) = true) →
      ∀ pl ∈ assets,
        okFile (respFn (mkUploadArgs channel threadTs (env.resolvePath pl.1) pl.2)) = none →
        LogEntry.error ("Failed to upload " ++ pl.2 ++ ".") ∈
          (uploadLoop env channel threadTs assets).2.2) := by
  refine ⟨?_, ?_, ?_⟩
  · intro assets
    induction assets with
    | nil => intro h; rfl
    | cons a rest ih =>
      obtain ⟨fp, lab⟩ := a
      intro h
      have hex : env.fileExists (env.resolvePath fp) = true :=
        h (fp, lab) (List.mem_cons_self _ _)
      have hrest : ∀ pl ∈ rest, env.fileExists (env.resolvePath pl.1) = true :=
        fun pl hpl => h pl (List.mem_cons_of_mem _ hpl)
      unfold uploadLoop
      rw [if_pos hex, hup]
      cases hok : okFile (respFn (mkUploadArgs channel threadTs (env.resolvePath fp) lab)) with
      | some f => simp [hok, ih hrest, List.filterMap_cons, exceptMap_ok]
      | none => simp [hok, ih hrest, List.filterMap_cons]
  · intro pre
    induction pre with
    | nil =>
      intro fp lab rest hpre hex
      rw [List.nil_append]
      unfold uploadLoop
      rw [if_neg (by simp [hex])]
    | cons q pre2 ih =>
      intro fp lab rest hpre hex
      obtain ⟨qf, ql⟩ := q
      have hq : env.fileExists (env.resolvePath qf) = true :=
        hpre (qf, ql) (List.mem_cons_self _ _)
      have hpre2 : ∀ pl ∈ pre2, env.fileExists (env.resolvePath pl.1) = true :=
        fun pl hpl => hpre pl (List.mem_cons_of_mem _ hpl)
      rw [List.cons_append]
      unfold uploadLoop
      rw [if_pos hq, hup]
      cases hok : okFile (respFn (mkUploadArgs channel threadTs (env.resolvePath qf) ql)) with
      | some f =>
        simp [hok, ih fp lab rest hpre2 hex, exceptMap_error]
      | none =>
        simp [hok, ih fp lab rest hpre2 hex]
  · intro assets
    induction assets with
    | nil => intro h pl hpl; exact absurd hpl (List.not_mem_nil pl)
    | cons a rest ih =>
      obtain ⟨fp, lab⟩ := a
      intro h pl hpl hnone
      have hex : env.fileExists (env.resolvePath fp) = true :=
        h (fp, lab) (List.mem_cons_self _ _)
      have hrest : ∀ pl2 ∈ rest, env.fileExists (env.resolvePath pl2.1) = true :=
        fun pl2 hpl2 => h pl2 (List.mem_cons_of_mem _ hpl2)
      unfold uploadLoop
      rw [if_pos hex, hup]
      rcases List.mem_cons.mp hpl with rfl | h2
      · have hnone2 : okFile (respFn (mkUploadArgs channel threadTs (env.resolvePath fp) lab)) =
            none := hnone
        simp only [hnone2]
        exact List.mem_cons_of_mem _ (List.mem_cons_self _ _)
      · have hmem := ih hrest pl h2 hnone
        cases hok : okFile (respFn (mkUploadArgs channel threadTs (env.resolvePath fp) lab)) with
        | some f =>
          simp only [hok]
          exact List.mem_cons_of_mem _ (List.mem_cons_of_mem _ hmem)
        | none =>
          simp only [hok]
          exact List.mem_cons_of_mem _ (List.mem_cons_of_mem _ hmem)

theorem uploadLoop_spec_witness :
    (uploadLoop envW5 "C" "111" [("a", "A"), ("b", "B")]).1 =
      Except.ok ["• *A*: <http://dl/a|Download>"] ∧
    LogEntry.error "Failed to upload B." ∈ (uploadLoop envW5 "C" "111" [("a", "A"), ("b", "B")]).2.2 := by
  have h := uploadLoop_spec envW5 "C" "111" respFnW5 (fun a => rfl)
  refine ⟨(h.1 [("a", "A"), ("b", "B")] (by intro pl hpl; rfl)).trans rfl, ?_⟩
  exact h.2.2 [("a", "A"), ("b", "B")] (by intro pl hpl; rfl) ("b", "B")
    (List.mem_cons_of_mem _ (List.mem_cons_self _ _)) rfl

end SRSlack

namespace SRSlack

/-- C4: in a run that reaches the update step (assets resolved, initial
message posted, upload loop completed without throwing): when the
accumulated download-link list is non-empty and the update call
succeeds, exactly one update call is made, targeting the same channel
and the same message identifier as the initial post, with the
recomposed message followed by the Download Links section (links in
upload order) and the configured trailing last line when non-empty, and
the run completes normally; when the link list is empty, no update call
is made, the run still completes normally, and the outcome is reported
by a warning log. -/
theorem success_update_spec (cfg : PluginConfig) (ctx : Context) (env : Env)
    (assets : List (String × String)) (msg : ChatPostResp) (links : List String)
    (upCalls : List TransportCall) (upLogs : List LogEntry)
    (ht : jsFalsy env.slackToken = false) (hc : jsFalsy env.slackChannel = false)
    (hg : (!effPrereleaseEnabled cfg && ctx.branch.prerelease) = false)
    (hres : resolveAssets (effAssets cfg)
      (interpolateString ctx.nextRelease.version ctx.nextRelease.notes) env.glob =
      Except.ok assets)
    (hpost : env.post ⟨channelOf env, none, composeInitial cfg ctx⟩ = Except.ok msg)
    (hloop : uploadLoop env (channelOf env) msg.ts assets = (Except.ok links, upCalls, upLogs)) :
    (links ≠ [] →
      env.update ⟨channelOf env, msg.ts, updatedText cfg ctx links⟩ = Except.ok () →
      (success cfg ctx env).result = Except.ok () ∧
      ((success cfg ctx env).calls).filter isChatUpdate =
        [TransportCall.chatUpdate ⟨channelOf env, msg.ts, updatedText cfg ctx links⟩]) ∧
    (links = [] →
      (success cfg ctx env).result = Except.ok () ∧
      ((success cfg ctx env).calls).filter isChatUpdate = [] ∧
      LogEntry.warn noFilesWarn ∈ (success cfg ctx env).logs) := by
  have hfilter : upCalls.filter isChatUpdate = [] := by
    have h2 := uploadLoop_no_update env (channelOf env) msg.ts assets
    rw [hloop] at h2
    exact h2
  constructor
  · intro hne hupd
    have hempty : links.isEmpty = false := by
      cases links with
      | nil => exact absurd rfl hne
      | cons x xs => rfl
    have hrt : runTry cfg ctx env =
        ⟨Except.ok (),
          TransportCall.postMessage ⟨channelOf env, none, composeInitial cfg ctx⟩ ::
            upCalls ++
              [TransportCall.chatUpdate ⟨channelOf env, msg.ts, updatedText cfg ctx links⟩],
          LogEntry.log (":rocket: Initial release message sent: " ++ msg.ts) ::
            upLogs ++
              [LogEntry.log "Release message updated with download links and last line."],
          some msg, some msg.ts⟩ := by
      unfold runTry
      simp only [hres, hpost, hloop]
      rw [if_neg (by simp [hempty]), hupd]
    refine ⟨?_, ?_⟩
    · simp [success, ht, hc, hg, hrt]
    · simp [success, ht, hc, hg, hrt, List.filter_append, List.filter_cons, isChatUpdate,
        hfilter]
  · intro hnil
    subst hnil
    have hrt : runTry cfg ctx env =
        ⟨Except.ok (),
          TransportCall.postMessage ⟨channelOf env, none, composeInitial cfg ctx⟩ :: upCalls,
          LogEntry.log (":rocket: Initial release message sent: " ++ msg.ts) ::
            upLogs ++ [LogEntry.warn noFilesWarn],
          some msg, some msg.ts⟩ := by
      unfold runTry
      simp only [hres, hpost, hloop]
      rfl
    refine ⟨?_, ?_, ?_⟩
    · simp [success, ht, hc, hg, hrt]
    · simp [success, ht, hc, hg, hrt, List.filter_append, List.filter_cons, isChatUpdate,
        hfilter]
    · simp [success, ht, hc, hg, hrt]

theorem success_update_spec_witness :
    (success cfgW4 ctxW4 envW4).result = Except.ok () ∧
    ((success cfgW4 ctxW4 envW4).calls).filter isChatUpdate =
      [TransportCall.chatUpdate
        ⟨"C", "111", updatedText cfgW4 ctxW4 ["• *App*: <http://dl/a|Download>"]⟩] :=
  (success_update_spec cfgW4 ctxW4 envW4 [("a.bin", "App")] ⟨"111", ⟨"init"⟩⟩
      ["• *App*: <http://dl/a|Download>"]
      [TransportCall.uploadV2 (mkUploadArgs "C" "111" "a.bin" "App")]
      [LogEntry.log "Uploading App...", LogEntry.log "Uploaded App: F1"]
      rfl rfl rfl rfl rfl rfl).1 (by simp) rfl

end SRSlack

namespace SRSlack

/-- C1 (amended): when an exception is raised inside the try block, the
orchestrator attempts the applicable recovery actions in order (the
thread reply when a thread identifier exists, then the caution overwrite
of the original message when it exists and the reply did not throw), and
the caller always observes a failure — never a normal return.  The
original triggering error is what the caller observes whenever the
attempted recovery calls themselves succeed; a throwing recovery call
instead propagates its own error in place of the original one (see the
counterexample). -/
theorem success_error_propagation (cfg : PluginConfig) (ctx : Context) (env : Env)
    (e : String)
    (ht : jsFalsy env.slackToken = false) (hc : jsFalsy env.slackChannel = false)
    (hg : (!effPrereleaseEnabled cfg && ctx.branch.prerelease) = false)
    (herr : (runTry cfg ctx env).result = Except.error e) :
    (∃ e2, (success cfg ctx env).result = Except.error e2) ∧
    ((∀ ts, (runTry cfg ctx env).threadTs = some ts →
        exceptIsOk (env.post (replyArgs (channelOf env) e ts)) = true) →
      (∀ m, (runTry cfg ctx env).initialMessage = some m →
        exceptIsOk (env.update (cautionArgs (channelOf env) m)) = true) →
      (success cfg ctx env).result = Except.error e ∧
      (success cfg ctx env).calls =
        (runTry cfg ctx env).calls ++
          ((match (runTry cfg ctx env).threadTs with
            | some ts => [TransportCall.postMessage (replyArgs (channelOf env) e ts)]
            | none => []) ++
           (match (runTry cfg ctx env).initialMessage with
            | some m => [TransportCall.chatUpdate (cautionArgs (channelOf env) m)]
            | none => []))) := by
  constructor
  · have hrec : ∃ e2,
        (recover env (channelOf env) e (runTry cfg ctx env).threadTs
          (runTry cfg ctx env).initialMessage).1 = Except.error e2 := by
      cases hts : (runTry cfg ctx env).threadTs with
      | none =>
        cases him : (runTry cfg ctx env).initialMessage with
        | none => exact ⟨e, rfl⟩
        | some m =>
          simp only [recover, recoverAnnotate]
          cases hu : env.update (cautionArgs (channelOf env) m) with
          | error e3 => exact ⟨e3, rfl⟩
          | ok u => exact ⟨e, rfl⟩
      | some ts =>
        simp only [recover]
        cases hp : env.post (replyArgs (channelOf env) e ts) with
        | error e2 => exact ⟨e2, rfl⟩
        | ok m2 =>
          cases him : (runTry cfg ctx env).initialMessage with
          | none => exact ⟨e, rfl⟩
          | some m =>
            simp only [recoverAnnotate]
            cases hu : env.update (cautionArgs (channelOf env) m) with
            | error e3 => exact ⟨e3, rfl⟩
            | ok u => exact ⟨e, rfl⟩
    obtain ⟨e2, he2⟩ := hrec
    refine ⟨e2, ?_⟩
    simp only [success, ht, hc, hg]
    simp only [herr]
    simpa using he2
  · intro hreply hann
    have hrec : recover env (channelOf env) e (runTry cfg ctx env).threadTs
        (runTry cfg ctx env).initialMessage =
        (Except.error e,
          (match (runTry cfg ctx env).threadTs with
           | some ts => [TransportCall.postMessage (replyArgs (channelOf env) e ts)]
           | none => []) ++
          (match (runTry cfg ctx env).initialMessage with
           | some m => [TransportCall.chatUpdate (cautionArgs (channelOf env) m)]
           | none => [])) := by
      cases hts : (runTry cfg ctx env).threadTs with
      | none =>
        cases him : (runTry cfg ctx env).initialMessage with
        | none => rfl
        | some m =>
          have h2 := hann m him
          simp only [recover, recoverAnnotate]
          cases hu : env.update (cautionArgs (channelOf env) m) with
          | error e3 =>
            rw [hu] at h2
            simp [exceptIsOk] at h2
          | ok u => rfl
      | some ts =>
        have h2 := hreply ts hts
        simp only [recover]
        cases hp : env.post (replyArgs (channelOf env) e ts) with
        | error e2 =>
          rw [hp] at h2
          simp [exceptIsOk] at h2
        | ok m2 =>
          cases him : (runTry cfg ctx env).initialMessage with
          | none => rfl
          | some m =>
            have h3 := hann m him
            simp only [recoverAnnotate]
            cases hu : env.update (cautionArgs (channelOf env) m) with
            | error e3 =>
              rw [hu] at h3
              simp [exceptIsOk] at h3
            | ok u => rfl
    constructor
    · simp only [success, ht, hc, hg]
      simp only [herr, hrec]
      simp
    · simp only [success, ht, hc, hg]
      simp only [herr, hrec]
      simp

/-- C1 counterexample: the try block fails with the original error
"Resolved file not found: /a.bin", the recovery thread reply throws
"reply boom", and the caller observes the recovery error instead of the
original one. -/
theorem success_error_propagation_counterexample :
    (runTry cfgCX ctxCX envCX).result = Except.error "Resolved file not found: /a.bin" ∧
    (success cfgCX ctxCX envCX).result = Except.error "reply boom" ∧
    ("reply boom" : String) ≠ "Resolved file not found: /a.bin" :=
  ⟨rfl, rfl, by decide⟩

theorem success_error_propagation_witness :
    (success cfgCX ctxCX envCXok).result = Except.error "Resolved file not found: /a.bin" :=
  ((success_error_propagation cfgCX ctxCX envCXok "Resolved file not found: /a.bin"
      rfl rfl rfl rfl).2
    (fun ts hts => by
      have h2 : some "111" = some ts := hts
      injection h2 with h3
      subst h3
      rfl)
    (fun m hm => by
      have h2 : some (⟨"111", ⟨"init"⟩⟩ : ChatPostResp) = some m := hm
      injection h2 with h3
      subst h3
      rfl)).1

end SRSlack
